import Mathlib

/-!
Verification development for the service-account rotation supervisor in
`autorclone.py` of the PMSAuto repository.

The Python source is shallowly embedded: Python lists become Lean `List`s,
the JSON instance-state dict becomes an association list over a small value
type, list indexing that can raise `IndexError` becomes `Option`-returning
lookup, and the side-effecting parts of `auto_rclone` (process kills, state
persistence, process launch) become explicit effect traces.
-/

namespace AutoRclone

/-- A JSON scalar as stored in the instance-state record
(`last_sa` is a string, `last_pid` an integer). -/
inductive JVal
  | str (s : String)
  | int (n : Int)
  deriving DecidableEq, Repr

/-- Lookup in a Python dict modelled as an association list
(first binding of the key wins; dict keys are unique anyway). -/
def dictLookup (cfg : List (String × JVal)) (k : String) : Option JVal :=
  match cfg with
  | [] => none
  | (k', v) :: rest => if k' = k then some v else dictLookup rest k

/-- `d[name] = value` on a Python dict: replace the binding in place if the
key is present, otherwise append it (insertion order preserved). -/
def dictInsert (cfg : List (String × JVal)) (name : String) (value : JVal) :
    List (String × JVal) :=
  match cfg with
  | [] => [(name, value)]
  | (k, w) :: rest =>
      if k = name then (k, value) :: rest else (k, w) :: dictInsert rest name value

/-- The keys of the record, in order. -/
def dictKeys (cfg : List (String × JVal)) : List String := cfg.map Prod.fst

/-- Insert one binding into a key-sorted association list, keeping it sorted
(lexicographic string order, as Python's `sort_keys=True`). -/
def insertSortedByKey (p : String × JVal) :
    List (String × JVal) → List (String × JVal)
  | [] => [p]
  | q :: rest => if p.1 ≤ q.1 then p :: q :: rest else q :: insertSortedByKey p rest

/-- Sort an association list by key (models `json.dump(..., sort_keys=True)`:
the serialized record lists the bindings in key order). -/
def sortByKey : List (String × JVal) → List (String × JVal)
  | [] => []
  | p :: rest => insertSortedByKey p (sortByKey rest)

/-- `write_config(instance_config, name, value)` from autorclone.py:
sets `instance_config[name] = value` and dumps the record to the instance
config file with sorted keys.  Returns the updated in-memory record and the
file contents, the latter modelled as the key-sorted list of bindings. -/
def write_config (instance_config : List (String × JVal)) (name : String)
    (value : JVal) : List (String × JVal) × List (String × JVal) :=
  let cfg := dictInsert instance_config name value
  (cfg, sortByKey cfg)

/-- `get_next_sa_json_path(sa_jsons, _last_sa)` from autorclone.py.
`sa_jsons[next_sa_index]` can raise `IndexError` in Python, so the result is
an `Option`: `none` models the exception. -/
def get_next_sa_json_path (sa_jsons : List String) (last_sa : String) :
    Option String :=
  let next_sa_index :=
    if last_sa ∉ sa_jsons then 0
    else sa_jsons.indexOf last_sa + 1
  let next_sa_index :=
    if next_sa_index > sa_jsons.length then next_sa_index - sa_jsons.length
    else next_sa_index
  sa_jsons[next_sa_index]?

/-- The re-sort of `sa_jsons` done at the start of `auto_rclone`
(lines 182-186): if the persisted `last_sa` is in the pool, rotate the pool so
that `last_sa` becomes the head (`sa_jsons[idx:] + sa_jsons[:idx]`). -/
def resume_reorder (sa_jsons : List String) (last_sa : String) : List String :=
  if last_sa ∈ sa_jsons then
    let i := sa_jsons.indexOf last_sa
    sa_jsons.drop i ++ sa_jsons.take i
  else sa_jsons

/-- The first credential picked by `auto_rclone` after a restart with
`persisted` recorded as `last_sa`: the pool is re-sorted, then
`get_next_sa_json_path` is called with the persisted value. -/
def restart_first_pick (sa_jsons : List String) (persisted : String) :
    Option String :=
  get_next_sa_json_path (resume_reorder sa_jsons persisted) persisted

/-- One entry of the `transferring` list of a `rclone rc core/stats` response.
Either field may be absent from the JSON object. -/
structure Transfer where
  bytes : Option Int
  speed : Option Int
  deriving DecidableEq, Repr

/-- The fields of a `rclone rc core/stats` response that the monitoring loop
reads.  Each is optional because the code uses `.get(key, default)`. -/
structure Snapshot where
  bytes : Option Int
  lastError : Option String
  transferring : Option (List Transfer)
  deriving DecidableEq, Repr

/-- The four `switch_sa_rules` toggles of autorclone.py. -/
structure Rules where
  up_than_750 : Bool
  error_user_rate_limit : Bool
  zero_transferred_between_check_interval : Bool
  all_transfers_in_zero : Bool
  deriving DecidableEq, Repr

/-- Whether the character list `pat` occurs as a contiguous sublist of the
second list: checked at every suffix. -/
def charsContain (pat : List Char) : List Char → Bool
  | [] => pat.isPrefixOf []
  | c :: rest => pat.isPrefixOf (c :: rest) || charsContain pat rest

/-- Python's `s.find(pat) > -1`: whether `pat` occurs as a substring of
`s`. -/
def strContainsSub (s pat : String) : Bool := charsContain pat.data s.data

/-- The `for transfer in response_json["transferring"]` loop of the
`all_transfers_in_zero` rule (lines 313-322): `graceful` stays `true` unless
some entry has both fields present with nonzero bytes and positive speed
(in which case the loop breaks with `graceful = False`); an entry missing
`bytes` or `speed` is skipped as already finished. -/
def gracefulCheck : List Transfer → Bool
  | [] => true
  | t :: rest =>
      match t.bytes, t.speed with
      | some b, some s => if b ≠ 0 ∧ s > 0 then false else gracefulCheck rest
      | _, _ => gracefulCheck rest

/-- Rule 1 block (lines 278-281): `cnt_transfer > 750 * pow(1000, 3)` —
750 GB decimal, not GiB.  Returns the `should_switch` contribution and the
rule name appended to `switch_reason`. -/
def rule_up_than_750 (rules : Rules) (cnt_transfer : Int) : Nat × List String :=
  if rules.up_than_750 then
    if cnt_transfer > 750 * 1000 ^ 3 then (1, ["up_than_750"]) else (0, [])
  else (0, [])

/-- Rule 2 block (lines 284-300): the zero-delta stall counter.  Returns the
updated `cnt_403_retry` and `cnt_transfer_last` counters, the `should_switch`
contribution and the reason entry.  Both counters are left untouched when the
rule is disabled (the `cnt_transfer_last = cnt_transfer` assignment sits
inside the rule's `if` block in the source). -/
def rule_zero_transferred (rules : Rules) (cnt_403_retry : Nat)
    (cnt_transfer_last cnt_transfer : Int) : Nat × Int × Nat × List String :=
  if rules.zero_transferred_between_check_interval then
    if cnt_transfer - cnt_transfer_last = 0 then
      let c := cnt_403_retry + 1
      if c ≥ 100 then
        (c, cnt_transfer, 1, ["zero_transferred_between_check_interval"])
      else (c, cnt_transfer, 0, [])
    else (0, cnt_transfer, 0, [])
  else (cnt_403_retry, cnt_transfer_last, 0, [])

/-- Rule 3 block (lines 303-307):
`response_json.get("lastError", "").find("userRateLimitExceeded") > -1`. -/
def rule_error_user_rate_limit (rules : Rules) (snap : Snapshot) :
    Nat × List String :=
  if rules.error_user_rate_limit then
    if strContainsSub (snap.lastError.getD "") "userRateLimitExceeded" then
      (1, ["error_user_rate_limit"])
    else (0, [])
  else (0, [])

/-- Rule 4 block (lines 310-325).
`response_json.get("transferring", False)` guards the loop with Python
truthiness, so a missing key and an empty list behave identically — both
leave `graceful = True`; the `match` below together with
`gracefulCheck [] = true` reproduces that. -/
def rule_all_transfers_in_zero (rules : Rules) (snap : Snapshot) :
    Nat × List String :=
  if rules.all_transfers_in_zero then
    let graceful :=
      match snap.transferring with
      | some ts => gracefulCheck ts
      | none => true
    if graceful then (1, ["all_transfers_in_zero"]) else (0, [])
  else (0, [])

/-- The rule-evaluation block of the monitoring loop (autorclone.py lines
260-328), from `cnt_transfer = response_json.get("bytes", 0)` through the four
`switch_sa_rules` checks.  Given the rule toggles, the current `cnt_403_retry`
and `cnt_transfer_last` counters and the parsed snapshot, returns the updated
two counters, the computed `should_switch` count, and the list of rule names
appended to `switch_reason`, in evaluation order. -/
def decide_switch (rules : Rules) (cnt_403_retry : Nat) (cnt_transfer_last : Int)
    (snap : Snapshot) : Nat × Int × Nat × List String :=
  let cnt_transfer := snap.bytes.getD 0
  let s1r1 := rule_up_than_750 rules cnt_transfer
  let stall := rule_zero_transferred rules cnt_403_retry cnt_transfer_last
    cnt_transfer
  let s3r3 := rule_error_user_rate_limit rules snap
  let s4r4 := rule_all_transfers_in_zero rules snap
  (stall.1, stall.2.1,
    s1r1.1 + stall.2.2.1 + s3r3.1 + s4r4.1,
    s1r1.2 ++ stall.2.2.2 ++ s3r3.2 ++ s4r4.2)

/-- The process facts `psutil` reads: which pids exist, a process's executable
name, and its direct children. -/
structure ProcTable where
  pid_exists : Int → Bool
  name : Int → String
  children : Int → List Int

/-- `force_kill_rclone_subproc_by_parent_pid(sh_pid)` from autorclone.py:
if `sh_pid` is alive, signal every direct child whose name contains
`"rclone"` (`child_proc.name().find("rclone") > -1`); returns the pids that
receive a kill signal, in order. -/
def force_kill_rclone_subproc_by_parent_pid (pt : ProcTable) (sh_pid : Int) :
    List Int :=
  if pt.pid_exists sh_pid then
    (pt.children sh_pid).filter fun child_pid =>
      strContainsSub (pt.name child_pid) "rclone"
  else []

/-- What one iteration of the inner monitoring loop does after its poll. -/
inductive Outcome
  /-- Poll failed but the strike cap is not reached: sleep `check_interval`
  and re-poll (`continue`). -/
  | retryWait
  /-- Poll succeeded and no rotation decision: sleep and keep monitoring. -/
  | keepMonitoring
  /-- Third consecutive poll failure: `proc.kill()` and `return False` out of
  `auto_rclone` — no further credential is tried. -/
  | sessionFatal
  /-- Rotation decision fired: child-tree kill, then `break` to switch to the
  next service account. -/
  | rotate
  deriving DecidableEq, Repr

/-- The mutable counters of one monitoring session: `cnt_error`,
`cnt_403_retry`, `cnt_transfer_last` (all initialised to 0 per session). -/
structure MonState where
  cnt_error : Nat
  cnt_403_retry : Nat
  cnt_transfer_last : Int
  deriving DecidableEq, Repr

/-- One iteration of the monitoring loop (autorclone.py lines 235-338): the
poll (`none` models `subprocess.CalledProcessError` from
`rclone rc core/stats`), the error strike counter, the rule evaluation and
the rotation decision.  Returns the updated counters, the pids signalled this
iteration, and the control outcome. -/
def monStep (pt : ProcTable) (proc_pid : Int) (rules : Rules) (level : Nat)
    (st : MonState) (poll : Option Snapshot) : MonState × List Int × Outcome :=
  match poll with
  | none =>
      let c := st.cnt_error + 1
      if c ≥ 3 then ({ st with cnt_error := c }, [proc_pid], .sessionFatal)
      else ({ st with cnt_error := c }, [], .retryWait)
  | some snap =>
      let st1 : MonState := { st with cnt_error := 0 }
      let res := decide_switch rules st1.cnt_403_retry st1.cnt_transfer_last snap
      let st2 : MonState :=
        { st1 with cnt_403_retry := res.1, cnt_transfer_last := res.2.1 }
      let should_switch := res.2.2.1
      if should_switch ≥ level then
        (st2, force_kill_rclone_subproc_by_parent_pid pt proc_pid, .rotate)
      else (st2, [], .keepMonitoring)

/-- An observable side effect of `auto_rclone`'s startup. -/
inductive Effect
  /-- `force_kill_rclone_subproc_by_parent_pid(last_pid)` invoked on the pid
  value loaded from the instance state. -/
  | killTree (v : JVal)
  /-- `write_config(instance_config, key, v)`. -/
  | persist (key : String) (v : JVal)
  /-- `subprocess.Popen(cmd_rclone_current_sa, shell=True)`. -/
  | launch
  deriving DecidableEq, Repr

/-- Lines 173-178 of `auto_rclone`: if the loaded instance state has a
`last_pid` key, the child tree of that pid is force-killed; otherwise nothing
happens. -/
def startupKills (instance_config : List (String × JVal)) : List Effect :=
  match dictLookup instance_config "last_pid" with
  | some v => [Effect.killTree v]
  | none => []

/-- Line 182 of `auto_rclone`: `instance_config.get("last_sa", "")`, read as
a string.  (A non-string value would, like `""`, simply fail the
`in sa_jsons` membership tests, since the pool holds non-empty path
strings.) -/
def configLastSa (instance_config : List (String × JVal)) : String :=
  match dictLookup instance_config "last_sa" with
  | some (JVal.str s) => s
  | _ => ""

/-- The effect trace of `auto_rclone`'s startup (lines 161-215): load the
instance state (`none` when the config file does not exist), kill the child
tree of a recorded `last_pid` if present, re-sort the pool around a recorded
`last_sa`, then run the first iteration of the SA loop up to the launch: pick
the next SA, persist it under `last_sa`, launch rclone.  A `none` pick
(Python `IndexError`) aborts the trace at the exception; an empty pool
returns `False` before any effect.
(Modelling note: `instance_config.get("last_sa", "")` is read as a string;
a non-string value would, like `""`, simply fail the `in sa_jsons`
membership tests, since the pool contains only non-empty path strings.) -/
def startupEffects (fileCfg : Option (List (String × JVal)))
    (sa_jsons : List String) : List Effect :=
  if sa_jsons.length = 0 then []
  else
    let instance_config := fileCfg.getD []
    match get_next_sa_json_path
        (resume_reorder sa_jsons (configLastSa instance_config))
        (configLastSa instance_config) with
    | none => startupKills instance_config
    | some current_sa =>
        startupKills instance_config ++
          [Effect.persist "last_sa" (JVal.str current_sa), Effect.launch]

/-- The per-entry condition exactly as the spec's all-idle sentence states
it: the entry lacks a `bytes` or `speed` field, or has zero speed together
with nonzero bytes.  (Spec-side definition, for comparison against the
behaviour of `gracefulCheck`, which is translated from the source.) -/
def claimIdleEntry (t : Transfer) : Bool :=
  t.bytes.isNone || t.speed.isNone ||
    (t.speed == some 0 && t.bytes != some 0)

/-- Counters after `k` successful polls that all report the same cumulative
byte count `b` (so with `st.cnt_transfer_last = b`, `k` consecutive
zero-delta polls), starting from counters `st`. -/
def constPolls (pt : ProcTable) (proc_pid : Int) (rules : Rules) (level : Nat)
    (b : Int) (st : MonState) : Nat → MonState
  | 0 => st
  | k + 1 =>
      (monStep pt proc_pid rules level
        (constPolls pt proc_pid rules level b st k) (some ⟨some b, none, none⟩)).1

/-- For `last_sa` in the pool, `get_next_sa_json_path` addresses the slot at
`indexOf last_sa + 1`: the wrap branch `next_sa_index > len(sa_jsons)` is
never taken, because `indexOf last_sa + 1 ≤ length`. -/
lemma get_next_of_mem (l : List String) (a : String) (hmem : a ∈ l) :
    get_next_sa_json_path l a = l[l.indexOf a + 1]? := by
  have hi : l.indexOf a < l.length := List.indexOf_lt_length.mpr hmem
  simp only [get_next_sa_json_path, if_neg (not_not_intro hmem)]
  rw [if_neg (by omega)]

/-- The re-sort of the pool puts the remembered credential at the head,
followed by the rest of the pool after it and then the part before it. -/
lemma resume_reorder_eq_cons (l : List String) (a : String) (hmem : a ∈ l) :
    resume_reorder l a =
      a :: (l.drop (l.indexOf a + 1) ++ l.take (l.indexOf a)) := by
  have hi : l.indexOf a < l.length := List.indexOf_lt_length.mpr hmem
  have hget : l[l.indexOf a] = a := List.getElem_indexOf hi
  have hdrop : l.drop (l.indexOf a) = a :: l.drop (l.indexOf a + 1) := by
    rw [List.drop_eq_getElem_cons hi, hget]
  simp only [resume_reorder, if_pos hmem]
  rw [hdrop, List.cons_append]

/-- C1 (code bug): round-robin coverage fails at the wrap-around point.  When
`last_sa` is the final element of the pool, the computed index equals the pool
length, the wrap check `next_sa_index > len(sa_jsons)` (strict, so never true
for an in-range `last_sa`) does not fire, and `sa_jsons[next_sa_index]`
raises `IndexError` (modelled as `none`) instead of returning the element at
index 0 as the spec states. -/
theorem c1_round_robin_wrap_raises (sa_jsons : List String) (last_sa : String)
    (hmem : last_sa ∈ sa_jsons)
    (hfinal : sa_jsons.indexOf last_sa + 1 = sa_jsons.length) :
    get_next_sa_json_path sa_jsons last_sa = none := by
  rw [get_next_of_mem sa_jsons last_sa hmem, hfinal]
  exact List.getElem?_eq_none (le_refl _)

/-- Witness for C1 at a concrete pool of two credentials. -/
theorem c1_round_robin_wrap_raises_witness :
    ("sa2.json" ∈ ["sa1.json", "sa2.json"] ∧
      ["sa1.json", "sa2.json"].indexOf "sa2.json" + 1 = 2) ∧
    get_next_sa_json_path ["sa1.json", "sa2.json"] "sa2.json" = none :=
  ⟨⟨by decide, by decide⟩,
    c1_round_robin_wrap_raises ["sa1.json", "sa2.json"] "sa2.json"
      (by decide) (by decide)⟩

/-- C2 counterexample: with `last_sa` the final element of the pool, the call
on the rotated pool returns the element at index 0 while the call on the
original pool raises `IndexError` (`none`) — the two results differ, so
resume continuity does not hold for every member of the pool. -/
theorem c2_resume_continuity_counterexample :
    get_next_sa_json_path
        (resume_reorder ["sa1.json", "sa2.json"] "sa2.json") "sa2.json" =
      some "sa1.json" ∧
    get_next_sa_json_path ["sa1.json", "sa2.json"] "sa2.json" = none ∧
    get_next_sa_json_path
        (resume_reorder ["sa1.json", "sa2.json"] "sa2.json") "sa2.json" ≠
      get_next_sa_json_path ["sa1.json", "sa2.json"] "sa2.json" := by
  refine ⟨by decide, by decide, by decide⟩

/-- C2 (amended): resume continuity holds for every `last_sa` in the pool
that is not at the final index — rotating the pool so `last_sa` becomes the
head and then calling `get_next_sa_json_path` with the same `last_sa` yields
the same credential as the call on the original ordering.  (At the final
index the original call raises `IndexError` while the rotated call wraps,
per the counterexample.) -/
theorem c2_resume_continuity_nonfinal (sa_jsons : List String)
    (last_sa : String) (hmem : last_sa ∈ sa_jsons)
    (hnf : sa_jsons.indexOf last_sa + 1 < sa_jsons.length) :
    get_next_sa_json_path (resume_reorder sa_jsons last_sa) last_sa =
      get_next_sa_json_path sa_jsons last_sa := by
  rw [get_next_of_mem _ _ hmem, resume_reorder_eq_cons _ _ hmem,
    get_next_of_mem _ _ (List.mem_cons_self _ _), List.indexOf_cons_self]
  have hd : 0 < (sa_jsons.drop (sa_jsons.indexOf last_sa + 1)).length := by
    rw [List.length_drop]
    omega
  rw [show (0 : Nat) + 1 = 1 by rfl, List.getElem?_cons_succ,
    List.getElem?_append_left hd, List.getElem?_drop]

/-- Witness for C2's amended theorem on a three-element pool. -/
theorem c2_resume_continuity_nonfinal_witness :
    ("sa2.json" ∈ ["sa1.json", "sa2.json", "sa3.json"] ∧
      ["sa1.json", "sa2.json", "sa3.json"].indexOf "sa2.json" + 1 < 3) ∧
    get_next_sa_json_path
        (resume_reorder ["sa1.json", "sa2.json", "sa3.json"] "sa2.json")
        "sa2.json" =
      get_next_sa_json_path ["sa1.json", "sa2.json", "sa3.json"] "sa2.json" :=
  ⟨⟨by decide, by decide⟩,
    c2_resume_continuity_nonfinal ["sa1.json", "sa2.json", "sa3.json"]
      "sa2.json" (by decide) (by decide)⟩

/-- Every effect emitted by `startupKills` is a child-tree kill. -/
lemma startupKills_all_killTree (cfg : List (String × JVal)) :
    ∀ e ∈ startupKills cfg, ∃ v, e = Effect.killTree v := by
  intro e he
  unfold startupKills at he
  cases h : dictLookup cfg "last_pid" with
  | none => rw [h] at he; simp at he
  | some v =>
      rw [h] at he
      simp at he
      exact ⟨v, he⟩

/-- C3 counterexample: a restart just after `last_sa` was persisted does not
resume under the persisted identity — it picks the following credential. -/
theorem c3_restart_same_identity_counterexample :
    restart_first_pick ["sa1.json", "sa2.json"] "sa1.json" = some "sa2.json" ∧
    restart_first_pick ["sa1.json", "sa2.json"] "sa1.json" ≠ some "sa1.json" :=
  ⟨by decide, by decide⟩

/-- C3 (amended): the chosen credential is persisted before the launch (in
the startup trace the `last_sa` persist immediately precedes the launch, and
only child-tree kills come before it); a restart just after that persist
resumes at the immediate successor, in cyclic pool order, of the persisted
credential when the pool has at least two credentials — not at the persisted
identity itself, and not skipping further ahead; and with a single-credential
pool the restart pick raises `IndexError` (`none`, the same wrap off-by-one
as C1), so in no case does the restart resume under the persisted
identity. -/
theorem c3_restart_resumes_at_successor
    (fileCfg : Option (List (String × JVal))) (sa_jsons : List String)
    (persisted : String) (hmem : persisted ∈ sa_jsons) :
    (Effect.launch ∈ startupEffects fileCfg sa_jsons →
      ∃ kills cur, startupEffects fileCfg sa_jsons =
        kills ++ [Effect.persist "last_sa" (JVal.str cur), Effect.launch] ∧
        ∀ e ∈ kills, ∃ v, e = Effect.killTree v) ∧
    (2 ≤ sa_jsons.length →
      restart_first_pick sa_jsons persisted =
        sa_jsons[(sa_jsons.indexOf persisted + 1) % sa_jsons.length]?) ∧
    (sa_jsons.length = 1 → restart_first_pick sa_jsons persisted = none) := by
  refine ⟨?_, ?_, ?_⟩
  · intro hl
    by_cases hz : sa_jsons.length = 0
    · simp only [startupEffects, if_pos hz] at hl
      simp at hl
    · simp only [startupEffects, if_neg hz] at hl ⊢
      cases hg : get_next_sa_json_path
          (resume_reorder sa_jsons (configLastSa (fileCfg.getD [])))
          (configLastSa (fileCfg.getD [])) with
      | none =>
          rw [hg] at hl
          obtain ⟨v, hv⟩ := startupKills_all_killTree _ _ hl
          simp at hv
      | some cur =>
          exact ⟨startupKills (fileCfg.getD []), cur, rfl,
            startupKills_all_killTree _⟩
  · intro h2
    have hi : sa_jsons.indexOf persisted < sa_jsons.length :=
      List.indexOf_lt_length.mpr hmem
    unfold restart_first_pick
    rw [resume_reorder_eq_cons _ _ hmem,
      get_next_of_mem _ _ (List.mem_cons_self _ _), List.indexOf_cons_self,
      show (0 : Nat) + 1 = 1 by rfl, List.getElem?_cons_succ]
    by_cases hnf : sa_jsons.indexOf persisted + 1 < sa_jsons.length
    · have hd : 0 < (sa_jsons.drop (sa_jsons.indexOf persisted + 1)).length := by
        rw [List.length_drop]
        omega
      rw [Nat.mod_eq_of_lt hnf, List.getElem?_append_left hd,
        List.getElem?_drop]
    · have hfin : sa_jsons.indexOf persisted + 1 = sa_jsons.length := by omega
      rw [hfin, Nat.mod_self, List.drop_length, List.nil_append]
      have h0 : 0 < sa_jsons.indexOf persisted := by omega
      rw [List.getElem?_take, if_pos h0]
  · intro h1
    have hi : sa_jsons.indexOf persisted < sa_jsons.length :=
      List.indexOf_lt_length.mpr hmem
    have hidx : sa_jsons.indexOf persisted = 0 := by omega
    unfold restart_first_pick
    rw [resume_reorder_eq_cons _ _ hmem,
      get_next_of_mem _ _ (List.mem_cons_self _ _), List.indexOf_cons_self,
      show (0 : Nat) + 1 = 1 by rfl, List.getElem?_cons_succ, hidx]
    have hd : sa_jsons.drop (0 + 1) = [] :=
      List.drop_eq_nil_of_le (by omega)
    rw [hd, List.take_zero]
    rfl

/-- Witness for C3's amended theorem: fresh state with two credentials for
the successor case, and a one-credential pool for the `IndexError` case. -/
theorem c3_restart_resumes_at_successor_witness :
    ("sa1.json" ∈ ["sa1.json", "sa2.json"] ∧ 2 ≤ 2 ∧
      "sa1.json" ∈ ["sa1.json"] ∧ (["sa1.json"] : List String).length = 1 ∧
      Effect.launch ∈ startupEffects none ["sa1.json", "sa2.json"]) ∧
    (∃ kills cur, startupEffects none ["sa1.json", "sa2.json"] =
        kills ++ [Effect.persist "last_sa" (JVal.str cur), Effect.launch] ∧
        ∀ e ∈ kills, ∃ v, e = Effect.killTree v) ∧
    restart_first_pick ["sa1.json", "sa2.json"] "sa1.json" =
      ["sa1.json", "sa2.json"][
        (["sa1.json", "sa2.json"].indexOf "sa1.json" + 1) % 2]? ∧
    restart_first_pick ["sa1.json"] "sa1.json" = none :=
  ⟨⟨by decide, by decide, by decide, by decide, by decide⟩,
    (c3_restart_resumes_at_successor none ["sa1.json", "sa2.json"] "sa1.json"
      (by decide)).1 (by decide),
    (c3_restart_resumes_at_successor none ["sa1.json", "sa2.json"] "sa1.json"
      (by decide)).2.1 (by decide),
    (c3_restart_resumes_at_successor none ["sa1.json"] "sa1.json"
      (by decide)).2.2 (by decide)⟩

/-- C9: if the loaded instance state has a `last_pid`, the startup trace
begins with the child-tree kill of exactly that pid, before any state persist
or process launch; with no state file, or a state file lacking `last_pid`,
no child-tree kill occurs in the startup trace. -/
theorem c9_stale_pid_cleanup (cfg : List (String × JVal))
    (sa_jsons : List String) (hne : sa_jsons ≠ []) :
    (∀ v, dictLookup cfg "last_pid" = some v →
      ∃ rest, startupEffects (some cfg) sa_jsons =
        Effect.killTree v :: rest ∧ ∀ w, Effect.killTree w ∉ rest) ∧
    (dictLookup cfg "last_pid" = none →
      ∀ w, Effect.killTree w ∉ startupEffects (some cfg) sa_jsons) ∧
    (∀ w, Effect.killTree w ∉ startupEffects none sa_jsons) := by
  have hz : ¬ sa_jsons.length = 0 := by
    simpa [List.length_eq_zero] using hne
  have hk1 : ∀ v, dictLookup cfg "last_pid" = some v →
      startupKills cfg = [Effect.killTree v] := by
    intro v hv
    simp [startupKills, hv]
  have hk0 : dictLookup cfg "last_pid" = none → startupKills cfg = [] := by
    intro hv
    simp [startupKills, hv]
  refine ⟨?_, ?_, ?_⟩
  · intro v hv
    simp only [startupEffects, if_neg hz, Option.getD_some]
    cases hg : get_next_sa_json_path
        (resume_reorder sa_jsons (configLastSa cfg)) (configLastSa cfg) with
    | none =>
        rw [hk1 v hv]
        exact ⟨[], rfl, by simp⟩
    | some cur =>
        rw [hk1 v hv]
        refine ⟨[Effect.persist "last_sa" (JVal.str cur), Effect.launch],
          rfl, ?_⟩
        intro w hw
        simp at hw
  · intro hv w
    simp only [startupEffects, if_neg hz, Option.getD_some]
    cases hg : get_next_sa_json_path
        (resume_reorder sa_jsons (configLastSa cfg)) (configLastSa cfg) with
    | none => rw [hk0 hv]; simp
    | some cur => rw [hk0 hv]; simp
  · intro w
    simp only [startupEffects, if_neg hz, Option.getD_none]
    cases hg : get_next_sa_json_path
        (resume_reorder sa_jsons (configLastSa [])) (configLastSa []) with
    | none => simp [startupKills, dictLookup]
    | some cur => simp [startupKills, dictLookup]

/-- Witness for C9: a state file recording `last_pid = 42` and a pool of one
credential. -/
theorem c9_stale_pid_cleanup_witness :
    ((["sa1.json"] : List String) ≠ [] ∧
      dictLookup [("last_pid", JVal.int 42)] "last_pid" =
        some (JVal.int 42)) ∧
    ∃ rest, startupEffects (some [("last_pid", JVal.int 42)]) ["sa1.json"] =
      Effect.killTree (JVal.int 42) :: rest ∧
      ∀ w, Effect.killTree w ∉ rest :=
  ⟨⟨by decide, by decide⟩,
    (c9_stale_pid_cleanup [("last_pid", JVal.int 42)] ["sa1.json"]
      (by decide)).1 (JVal.int 42) (by decide)⟩

lemma dictLookup_dictInsert_self (cfg : List (String × JVal)) (n : String)
    (v : JVal) : dictLookup (dictInsert cfg n v) n = some v := by
  induction cfg with
  | nil => simp [dictInsert, dictLookup]
  | cons p rest ih =>
      obtain ⟨k, w⟩ := p
      by_cases h : k = n
      · subst h
        simp [dictInsert, dictLookup]
      · simp [dictInsert, dictLookup, h, ih]

lemma dictLookup_dictInsert_ne (cfg : List (String × JVal)) (n k : String)
    (v : JVal) (h : k ≠ n) :
    dictLookup (dictInsert cfg n v) k = dictLookup cfg k := by
  have h' : n ≠ k := Ne.symm h
  induction cfg with
  | nil => simp [dictInsert, dictLookup, h']
  | cons p rest ih =>
      obtain ⟨k', w⟩ := p
      by_cases hk : k' = n
      · subst hk
        simp [dictInsert, dictLookup, h']
      · by_cases hkk : k' = k
        · subst hkk
          simp [dictInsert, dictLookup, hk]
        · simp [dictInsert, dictLookup, hk, hkk, ih]

lemma mem_insertSortedByKey (p : String × JVal) (l : List (String × JVal))
    (x : String × JVal) : x ∈ insertSortedByKey p l ↔ x = p ∨ x ∈ l := by
  induction l with
  | nil => simp [insertSortedByKey]
  | cons q rest ih =>
      by_cases h : p.1 ≤ q.1
      · simp [insertSortedByKey, h]
      · simp [insertSortedByKey, h, ih]
        tauto

lemma mem_dictKeys_insertSortedByKey (p : String × JVal)
    (l : List (String × JVal)) (a : String) :
    a ∈ dictKeys (insertSortedByKey p l) ↔ a = p.1 ∨ a ∈ dictKeys l := by
  simp only [dictKeys, List.mem_map]
  constructor
  · rintro ⟨x, hx, rfl⟩
    rcases (mem_insertSortedByKey p l x).mp hx with h | h
    · subst h
      exact Or.inl rfl
    · exact Or.inr ⟨x, h, rfl⟩
  · rintro (h | ⟨x, hx, rfl⟩)
    · exact ⟨p, (mem_insertSortedByKey p l p).mpr (Or.inl rfl), h.symm⟩
    · exact ⟨x, (mem_insertSortedByKey p l x).mpr (Or.inr hx), rfl⟩

lemma mem_dictKeys_sortByKey (l : List (String × JVal)) (a : String) :
    a ∈ dictKeys (sortByKey l) ↔ a ∈ dictKeys l := by
  induction l with
  | nil => simp [sortByKey]
  | cons p rest ih =>
      show a ∈ dictKeys (insertSortedByKey p (sortByKey rest)) ↔ _
      rw [mem_dictKeys_insertSortedByKey, ih]
      simp [dictKeys]

lemma dictLookup_insertSortedByKey (p : String × JVal)
    (l : List (String × JVal)) (k : String) (hout : p.1 ∉ dictKeys l) :
    dictLookup (insertSortedByKey p l) k =
      if p.1 = k then some p.2 else dictLookup l k := by
  induction l with
  | nil =>
      obtain ⟨kp, vp⟩ := p
      simp [insertSortedByKey, dictLookup]
  | cons q rest ih =>
      obtain ⟨kq, vq⟩ := q
      simp only [dictKeys, List.map_cons, List.mem_cons, not_or] at hout
      obtain ⟨hq, hout'⟩ := hout
      by_cases h : p.1 ≤ kq
      · obtain ⟨kp, vp⟩ := p
        simp only [insertSortedByKey, if_pos h, dictLookup]
      · simp only [insertSortedByKey, if_neg h]
        by_cases hk : kq = k
        · subst hk
          simp [dictLookup, hq]
        · simp only [dictLookup, if_neg hk, ih hout']

lemma dictLookup_sortByKey (l : List (String × JVal)) (k : String)
    (hnd : (dictKeys l).Nodup) :
    dictLookup (sortByKey l) k = dictLookup l k := by
  induction l with
  | nil => rfl
  | cons p rest ih =>
      obtain ⟨kp, vp⟩ := p
      simp only [dictKeys, List.map_cons, List.nodup_cons] at hnd
      have hout : kp ∉ dictKeys (sortByKey rest) := by
        rw [mem_dictKeys_sortByKey]
        exact hnd.1
      show dictLookup (insertSortedByKey (kp, vp) (sortByKey rest)) k = _
      rw [dictLookup_insertSortedByKey _ _ _ hout, ih hnd.2]
      by_cases hk : kp = k <;> simp [dictLookup, hk]

lemma mem_dictKeys_dictInsert (cfg : List (String × JVal)) (n a : String)
    (v : JVal) :
    a ∈ dictKeys (dictInsert cfg n v) ↔ a = n ∨ a ∈ dictKeys cfg := by
  induction cfg with
  | nil => simp [dictInsert, dictKeys]
  | cons p rest ih =>
      obtain ⟨k, w⟩ := p
      by_cases h : k = n
      · subst h
        simp [dictInsert, dictKeys]
      · simp [dictInsert, dictKeys, h] at ih ⊢
        rw [ih]
        tauto

lemma dictKeys_dictInsert_nodup (cfg : List (String × JVal)) (n : String)
    (v : JVal) (hnd : (dictKeys cfg).Nodup) :
    (dictKeys (dictInsert cfg n v)).Nodup := by
  induction cfg with
  | nil => simp [dictInsert, dictKeys]
  | cons p rest ih =>
      obtain ⟨k, w⟩ := p
      simp only [dictKeys, List.map_cons, List.nodup_cons] at hnd
      by_cases h : k = n
      · subst h
        simpa [dictInsert, dictKeys] using hnd
      · simp only [dictInsert, if_neg h, dictKeys, List.map_cons,
          List.nodup_cons]
        refine ⟨?_, ih hnd.2⟩
        rw [show List.map Prod.fst (dictInsert rest n v) =
          dictKeys (dictInsert rest n v) from rfl, mem_dictKeys_dictInsert]
        rintro (rfl | hmem)
        · exact h rfl
        · exact hnd.1 hmem

lemma pairwise_insertSortedByKey (p : String × JVal)
    (l : List (String × JVal))
    (h : l.Pairwise fun x y => x.1 ≤ y.1) :
    (insertSortedByKey p l).Pairwise fun x y => x.1 ≤ y.1 := by
  induction l with
  | nil => simp [insertSortedByKey]
  | cons q rest ih =>
      rw [List.pairwise_cons] at h
      by_cases hle : p.1 ≤ q.1
      · rw [insertSortedByKey, if_pos hle]
        refine List.Pairwise.cons ?_ (List.Pairwise.cons h.1 h.2)
        intro y hy
        rcases List.mem_cons.mp hy with rfl | hy'
        · exact hle
        · exact le_trans hle (h.1 y hy')
      · rw [insertSortedByKey, if_neg hle]
        refine List.Pairwise.cons ?_ (ih h.2)
        intro y hy
        rcases (mem_insertSortedByKey p rest y).mp hy with rfl | hy'
        · exact le_of_not_le hle
        · exact h.1 y hy'

lemma pairwise_sortByKey (l : List (String × JVal)) :
    (sortByKey l).Pairwise fun x y => x.1 ≤ y.1 := by
  induction l with
  | nil => simp [sortByKey]
  | cons p rest ih => exact pairwise_insertSortedByKey p _ ih

/-- C8: `write_config` sets exactly the requested key, both in the in-memory
record and in the rewritten file, whose bindings are listed with sorted keys;
every other key keeps its previous value in both. -/
theorem c8_write_config_frame (cfg : List (String × JVal)) (name : String)
    (value : JVal) (hnd : (dictKeys cfg).Nodup) :
    dictLookup (write_config cfg name value).1 name = some value ∧
    dictLookup (write_config cfg name value).2 name = some value ∧
    (∀ k, k ≠ name →
      dictLookup (write_config cfg name value).1 k = dictLookup cfg k ∧
      dictLookup (write_config cfg name value).2 k = dictLookup cfg k) ∧
    ((write_config cfg name value).2.Pairwise fun x y => x.1 ≤ y.1) ∧
    (write_config cfg name value).2 = sortByKey (write_config cfg name value).1
    := by
  have hnd' : (dictKeys (dictInsert cfg name value)).Nodup :=
    dictKeys_dictInsert_nodup cfg name value hnd
  simp only [write_config]
  refine ⟨dictLookup_dictInsert_self cfg name value, ?_, ?_,
    pairwise_sortByKey _, trivial⟩
  · rw [dictLookup_sortByKey _ _ hnd', dictLookup_dictInsert_self]
  · intro k hk
    exact ⟨dictLookup_dictInsert_ne cfg name k value hk, by
      rw [dictLookup_sortByKey _ _ hnd',
        dictLookup_dictInsert_ne cfg name k value hk]⟩

/-- Witness for C8: persisting `last_sa` preserves a recorded `last_pid` in
memory and in the sorted file image. -/
theorem c8_write_config_frame_witness :
    (dictKeys [("last_pid", JVal.int 7)]).Nodup ∧
    dictLookup (write_config [("last_pid", JVal.int 7)] "last_sa"
        (JVal.str "sa2.json")).1 "last_sa" = some (JVal.str "sa2.json") ∧
    dictLookup (write_config [("last_pid", JVal.int 7)] "last_sa"
        (JVal.str "sa2.json")).2 "last_pid" = some (JVal.int 7) :=
  ⟨by decide,
    (c8_write_config_frame [("last_pid", JVal.int 7)] "last_sa"
      (JVal.str "sa2.json") (by decide)).1,
    ((c8_write_config_frame [("last_pid", JVal.int 7)] "last_sa"
      (JVal.str "sa2.json") (by decide)).2.2.1 "last_pid" (by decide)).2⟩

lemma mem_rule_up (rules : Rules) (x : Int) :
    "up_than_750" ∈ (rule_up_than_750 rules x).2 ↔
      rules.up_than_750 = true ∧ x > 750 * 1000 ^ 3 := by
  unfold rule_up_than_750
  split_ifs <;> simp_all

lemma mem_rule_up_ne (rules : Rules) (x : Int) (s : String)
    (h : s ≠ "up_than_750") : s ∉ (rule_up_than_750 rules x).2 := by
  unfold rule_up_than_750
  split_ifs <;> simp_all

lemma mem_rule_zero_ne (rules : Rules) (c : Nat) (last x : Int) (s : String)
    (h : s ≠ "zero_transferred_between_check_interval") :
    s ∉ (rule_zero_transferred rules c last x).2.2.2 := by
  unfold rule_zero_transferred
  dsimp only
  split_ifs <;> simp_all

lemma mem_rule_err_ne (rules : Rules) (snap : Snapshot) (s : String)
    (h : s ≠ "error_user_rate_limit") :
    s ∉ (rule_error_user_rate_limit rules snap).2 := by
  unfold rule_error_user_rate_limit
  split_ifs <;> simp_all

lemma mem_rule_all (rules : Rules) (snap : Snapshot) :
    "all_transfers_in_zero" ∈ (rule_all_transfers_in_zero rules snap).2 ↔
      rules.all_transfers_in_zero = true ∧
        (match snap.transferring with
          | some ts => gracefulCheck ts
          | none => true) = true := by
  unfold rule_all_transfers_in_zero
  dsimp only
  split_ifs <;> simp_all

lemma mem_rule_all_ne (rules : Rules) (snap : Snapshot) (s : String)
    (h : s ≠ "all_transfers_in_zero") :
    s ∉ (rule_all_transfers_in_zero rules snap).2 := by
  unfold rule_all_transfers_in_zero
  dsimp only
  split_ifs <;> simp_all

/-- The `up_than_750` reason appears in `decide_switch`'s output exactly when
the rule is enabled and the cumulative byte count strictly exceeds the
750 GB threshold. -/
lemma mem_decide_up (rules : Rules) (c : Nat) (last : Int) (snap : Snapshot) :
    "up_than_750" ∈ (decide_switch rules c last snap).2.2.2 ↔
      rules.up_than_750 = true ∧ snap.bytes.getD 0 > 750 * 1000 ^ 3 := by
  have h2 := mem_rule_zero_ne rules c last (snap.bytes.getD 0) "up_than_750"
    (by decide)
  have h3 := mem_rule_err_ne rules snap "up_than_750" (by decide)
  have h4 := mem_rule_all_ne rules snap "up_than_750" (by decide)
  simp [decide_switch, List.mem_append, mem_rule_up, h2, h3, h4]

/-- The `all_transfers_in_zero` reason appears in `decide_switch`'s output
exactly when the rule is enabled and the graceful check over the
`transferring` list passes. -/
lemma mem_decide_all (rules : Rules) (c : Nat) (last : Int) (snap : Snapshot) :
    "all_transfers_in_zero" ∈ (decide_switch rules c last snap).2.2.2 ↔
      rules.all_transfers_in_zero = true ∧
        (match snap.transferring with
          | some ts => gracefulCheck ts
          | none => true) = true := by
  have h1 := mem_rule_up_ne rules (snap.bytes.getD 0) "all_transfers_in_zero"
    (by decide)
  have h2 := mem_rule_zero_ne rules c last (snap.bytes.getD 0)
    "all_transfers_in_zero" (by decide)
  have h3 := mem_rule_err_ne rules snap "all_transfers_in_zero" (by decide)
  simp [decide_switch, List.mem_append, mem_rule_all, h1, h2, h3]

/-- `gracefulCheck` passes exactly when every entry lacks a field, reports
zero bytes, or reports non-positive speed. -/
lemma gracefulCheck_iff (ts : List Transfer) :
    gracefulCheck ts = true ↔
      ∀ t ∈ ts, t.bytes = none ∨ t.speed = none ∨ t.bytes = some 0 ∨
        ∃ s, s ≤ 0 ∧ t.speed = some s := by
  induction ts with
  | nil => simp [gracefulCheck]
  | cons t rest ih =>
      obtain ⟨tb, tsp⟩ := t
      cases tb with
      | none => simp [gracefulCheck, ih]
      | some b =>
          cases tsp with
          | none => simp [gracefulCheck, ih]
          | some s =>
              by_cases hc : b ≠ 0 ∧ s > 0
              · rw [show gracefulCheck (⟨some b, some s⟩ :: rest) =
                  if b ≠ 0 ∧ s > 0 then false else gracefulCheck rest from rfl,
                  if_pos hc]
                simp only [Bool.false_eq_true, false_iff]
                intro hall
                rcases hall ⟨some b, some s⟩ (List.mem_cons_self _ _) with
                  h | h | h | ⟨s', hs', heq⟩
                · simp at h
                · simp at h
                · simp at h
                  exact hc.1 h
                · simp at heq
                  subst heq
                  have := hc.2
                  omega
              · rw [show gracefulCheck (⟨some b, some s⟩ :: rest) =
                  if b ≠ 0 ∧ s > 0 then false else gracefulCheck rest from rfl,
                  if_neg hc, ih]
                constructor
                · intro h t' hmem
                  rcases List.mem_cons.mp hmem with rfl | hm
                  · push_neg at hc
                    by_cases hb : b = 0
                    · exact Or.inr (Or.inr (Or.inl (by simp [hb])))
                    · exact Or.inr (Or.inr (Or.inr ⟨s, hc hb, rfl⟩))
                  · exact h t' hm
                · intro h t' hm
                  exact h t' (List.mem_cons_of_mem _ hm)

/-- C6: the size-cap rule compares cumulative bytes with strict `>` against
the decimal threshold 750×10⁹: a snapshot at exactly the threshold does not
fire the rule, one byte more fires it. -/
theorem c6_size_cap_strict (rules : Rules) (c : Nat) (last : Int)
    (lastE : Option String) (trans : Option (List Transfer))
    (hup : rules.up_than_750 = true) :
    "up_than_750" ∉
      (decide_switch rules c last
        ⟨some (750 * 1000 ^ 3), lastE, trans⟩).2.2.2 ∧
    "up_than_750" ∈
      (decide_switch rules c last
        ⟨some (750 * 1000 ^ 3 + 1), lastE, trans⟩).2.2.2 := by
  constructor
  · rw [mem_decide_up]
    rintro ⟨-, hgt⟩
    exact lt_irrefl _ hgt
  · rw [mem_decide_up]
    exact ⟨hup, lt_add_one _⟩

/-- Witness for C6 with all four rules enabled and fresh counters. -/
theorem c6_size_cap_strict_witness :
    (⟨true, true, true, true⟩ : Rules).up_than_750 = true ∧
    "up_than_750" ∉
      (decide_switch ⟨true, true, true, true⟩ 0 0
        ⟨some (750 * 1000 ^ 3), none, none⟩).2.2.2 ∧
    "up_than_750" ∈
      (decide_switch ⟨true, true, true, true⟩ 0 0
        ⟨some (750 * 1000 ^ 3 + 1), none, none⟩).2.2.2 :=
  ⟨rfl, (c6_size_cap_strict ⟨true, true, true, true⟩ 0 0 none none rfl).1,
    (c6_size_cap_strict ⟨true, true, true, true⟩ 0 0 none none rfl).2⟩

/-- C4 counterexample: a `transferring` entry reporting zero bytes with a
positive speed does not prevent the `all_transfers_in_zero` rule from firing
— the rule fires on a snapshot whose only entry has `bytes = 0, speed = 1`,
although the claim's per-entry condition (`claimIdleEntry`) rejects that
entry. -/
theorem c4_all_idle_counterexample :
    "all_transfers_in_zero" ∈
      (decide_switch ⟨false, false, false, true⟩ 0 0
        ⟨some 0, none, some [⟨some 0, some 1⟩]⟩).2.2.2 ∧
    claimIdleEntry ⟨some 0, some 1⟩ = false ∧
    ([⟨some 0, some 1⟩] : List Transfer).all claimIdleEntry = false :=
  ⟨by decide, by decide, by decide⟩

/-- C4 (amended): with the rule enabled, `all_transfers_in_zero` fires iff
every entry of the active-transfers list lacks a `bytes` or `speed` field,
or reports zero bytes, or reports non-positive speed — equivalently, an
entry with nonzero bytes and positive speed (and only such an entry)
prevents the rule from firing. -/
theorem c4_all_idle_rule_characterization (rules : Rules) (c : Nat)
    (last : Int) (snap : Snapshot)
    (h4 : rules.all_transfers_in_zero = true) :
    "all_transfers_in_zero" ∈ (decide_switch rules c last snap).2.2.2 ↔
      ∀ t ∈ snap.transferring.getD [], t.bytes = none ∨ t.speed = none ∨
        t.bytes = some 0 ∨ ∃ s, s ≤ 0 ∧ t.speed = some s := by
  rw [mem_decide_all]
  cases ht : snap.transferring with
  | none => simp [h4, ht]
  | some ts => simp [h4, ht, gracefulCheck_iff]

/-- Witness for C4's amended characterization: an entry missing its `bytes`
field counts as idle and the rule fires. -/
theorem c4_all_idle_rule_characterization_witness :
    (⟨false, false, false, true⟩ : Rules).all_transfers_in_zero = true ∧
    ("all_transfers_in_zero" ∈
        (decide_switch ⟨false, false, false, true⟩ 0 0
          ⟨none, none, some [⟨none, some 5⟩]⟩).2.2.2 ↔
      ∀ t ∈ (Snapshot.mk none none
          (some [⟨none, some 5⟩])).transferring.getD [],
        t.bytes = none ∨ t.speed = none ∨ t.bytes = some 0 ∨
          ∃ s, s ≤ 0 ∧ t.speed = some s) :=
  ⟨rfl, c4_all_idle_rule_characterization ⟨false, false, false, true⟩ 0 0
    ⟨none, none, some [⟨none, some 5⟩]⟩ rfl⟩

lemma decide_switch_fst (rules : Rules) (c : Nat) (last : Int)
    (snap : Snapshot) :
    (decide_switch rules c last snap).1 =
      (rule_zero_transferred rules c last (snap.bytes.getD 0)).1 := rfl

lemma decide_switch_snd_fst (rules : Rules) (c : Nat) (last : Int)
    (snap : Snapshot) :
    (decide_switch rules c last snap).2.1 =
      (rule_zero_transferred rules c last (snap.bytes.getD 0)).2.1 := rfl

lemma rule_zero_reset (rules : Rules) (c : Nat) (last x : Int)
    (hz : rules.zero_transferred_between_check_interval = true)
    (hne : ¬ x - last = 0) :
    (rule_zero_transferred rules c last x).1 = 0 := by
  unfold rule_zero_transferred
  rw [if_pos hz, if_neg hne]

lemma rule_zero_increment (rules : Rules) (c : Nat) (last x : Int)
    (hz : rules.zero_transferred_between_check_interval = true)
    (heq : x - last = 0) :
    (rule_zero_transferred rules c last x).1 = c + 1 := by
  unfold rule_zero_transferred
  rw [if_pos hz, if_pos heq]
  dsimp only
  split_ifs <;> rfl

lemma rule_zero_last_updated (rules : Rules) (c : Nat) (last x : Int)
    (hz : rules.zero_transferred_between_check_interval = true)
    (heq : x - last = 0) :
    (rule_zero_transferred rules c last x).2.1 = x := by
  unfold rule_zero_transferred
  rw [if_pos hz, if_pos heq]
  dsimp only
  split_ifs <;> rfl

lemma rule_zero_should (rules : Rules) (c : Nat) (last x : Int)
    (hz : rules.zero_transferred_between_check_interval = true)
    (heq : x - last = 0) :
    (rule_zero_transferred rules c last x).2.2.1 =
      if c + 1 ≥ 100 then 1 else 0 := by
  unfold rule_zero_transferred
  rw [if_pos hz, if_pos heq]
  dsimp only
  split_ifs <;> rfl

/-- After a successful poll the new counters are: error strikes reset to 0,
the two stall counters as computed by the rule evaluation. -/
lemma monStep_fst_of_poll (pt : ProcTable) (proc_pid : Int) (rules : Rules)
    (level : Nat) (st : MonState) (snap : Snapshot) :
    (monStep pt proc_pid rules level st (some snap)).1 =
      ⟨0, (decide_switch rules st.cnt_403_retry st.cnt_transfer_last snap).1,
        (decide_switch rules st.cnt_403_retry st.cnt_transfer_last
          snap).2.1⟩ := by
  simp only [monStep]
  split_ifs <;> rfl

/-- A successful poll ends in the rotation branch exactly when the computed
`should_switch` reaches the configured level. -/
lemma monStep_rotate_iff (pt : ProcTable) (proc_pid : Int) (rules : Rules)
    (level : Nat) (st : MonState) (snap : Snapshot) :
    (monStep pt proc_pid rules level st (some snap)).2.2 = Outcome.rotate ↔
      level ≤ (decide_switch rules st.cnt_403_retry st.cnt_transfer_last
        snap).2.2.1 := by
  simp only [monStep]
  split_ifs with h
  · simp [h]
  · simp [h]

/-- With only the stall rule enabled, `should_switch` is exactly the stall
rule's contribution. -/
lemma decide_switch_should_stall_only (c : Nat) (last : Int)
    (snap : Snapshot) :
    (decide_switch ⟨false, false, true, false⟩ c last snap).2.2.1 =
      (rule_zero_transferred ⟨false, false, true, false⟩ c last
        (snap.bytes.getD 0)).2.2.1 := by
  simp [decide_switch, rule_up_than_750, rule_error_user_rate_limit,
    rule_all_transfers_in_zero]

/-- With only the stall rule enabled at level 1, `k` consecutive polls all
reporting byte count `b` from fresh counters whose last-seen count is `b`
leave the counters at `cnt_error = 0`, `cnt_403_retry = k`,
`cnt_transfer_last = b`. -/
lemma constPolls_stall_state (pt : ProcTable) (proc_pid : Int) (b : Int) :
    ∀ k : Nat,
      constPolls pt proc_pid ⟨false, false, true, false⟩ 1 b ⟨0, 0, b⟩ k =
        ⟨0, k, b⟩ := by
  intro k
  induction k with
  | zero => rfl
  | succ k ih =>
      rw [constPolls, ih, monStep_fst_of_poll, decide_switch_fst,
        decide_switch_snd_fst]
      dsimp only [Option.getD]
      rw [rule_zero_increment _ k b b rfl (sub_self b),
        rule_zero_last_updated _ k b b rfl (sub_self b)]

/-- C5: a poll whose bytes strictly increased resets the stall counter to 0
(never increments it); a poll with unchanged bytes increments it by exactly
1; and with only the stalled-transfer rule enabled at level 1, a run of
consecutive zero-delta polls makes the rotation decision fire exactly on the
100th such poll. -/
theorem c5_stall_counter_dynamics (pt : ProcTable) (proc_pid : Int)
    (b : Int) :
    (∀ (rules : Rules) (c : Nat) (last : Int) (snap : Snapshot),
      rules.zero_transferred_between_check_interval = true →
      last < snap.bytes.getD 0 →
      (decide_switch rules c last snap).1 = 0) ∧
    (∀ (rules : Rules) (c : Nat) (snap : Snapshot),
      rules.zero_transferred_between_check_interval = true →
      (decide_switch rules c (snap.bytes.getD 0) snap).1 = c + 1) ∧
    (∀ k : Nat,
      constPolls pt proc_pid ⟨false, false, true, false⟩ 1 b ⟨0, 0, b⟩ k =
        ⟨0, k, b⟩) ∧
    (∀ k : Nat, 1 ≤ k →
      ((monStep pt proc_pid ⟨false, false, true, false⟩ 1
          (constPolls pt proc_pid ⟨false, false, true, false⟩ 1 b
            ⟨0, 0, b⟩ (k - 1))
          (some ⟨some b, none, none⟩)).2.2 = Outcome.rotate ↔ 100 ≤ k)) := by
  refine ⟨?_, ?_, constPolls_stall_state pt proc_pid b, ?_⟩
  · intro rules c last snap hz hlt
    rw [decide_switch_fst]
    exact rule_zero_reset rules c last _ hz (by omega)
  · intro rules c snap hz
    rw [decide_switch_fst]
    exact rule_zero_increment rules c _ _ hz (sub_self _)
  · intro k hk
    obtain ⟨j, rfl⟩ : ∃ j, k = j + 1 := ⟨k - 1, by omega⟩
    rw [Nat.add_sub_cancel, constPolls_stall_state pt proc_pid b j,
      monStep_rotate_iff]
    dsimp only
    rw [decide_switch_should_stall_only]
    dsimp only [Option.getD]
    rw [rule_zero_should _ j b b rfl (sub_self b)]
    by_cases h : j + 1 ≥ 100
    · rw [if_pos h]
      constructor
      · intro
        omega
      · intro
        exact le_refl 1
    · rw [if_neg h]
      constructor
      · intro hle
        omega
      · intro hle
        omega

/-- Witness for C5 at concrete counters: a strictly-increasing poll resets,
a flat poll increments, and the rotation decision on the first zero-delta
poll is still off. -/
theorem c5_stall_counter_dynamics_witness :
    ((⟨false, false, true, false⟩ : Rules).zero_transferred_between_check_interval
        = true ∧ (0 : Int) < (5 : Int) ∧ (1 : Nat) ≤ 1) ∧
    (decide_switch ⟨false, false, true, false⟩ 7 0 ⟨some 5, none, none⟩).1
      = 0 ∧
    (decide_switch ⟨false, false, true, false⟩ 7 5 ⟨some 5, none, none⟩).1
      = 8 ∧
    constPolls ⟨fun _ => false, fun _ => "", fun _ => []⟩ 9
      ⟨false, false, true, false⟩ 1 0 ⟨0, 0, 0⟩ 2 = ⟨0, 2, 0⟩ ∧
    ((monStep ⟨fun _ => false, fun _ => "", fun _ => []⟩ 9
        ⟨false, false, true, false⟩ 1
        (constPolls ⟨fun _ => false, fun _ => "", fun _ => []⟩ 9
          ⟨false, false, true, false⟩ 1 0 ⟨0, 0, 0⟩ (1 - 1))
        (some ⟨some 0, none, none⟩)).2.2 = Outcome.rotate ↔ 100 ≤ 1) :=
  ⟨⟨rfl, by decide, by decide⟩,
    (c5_stall_counter_dynamics ⟨fun _ => false, fun _ => "", fun _ => []⟩
      9 0).1 ⟨false, false, true, false⟩ 7 0 ⟨some 5, none, none⟩ rfl
      (by decide),
    (c5_stall_counter_dynamics ⟨fun _ => false, fun _ => "", fun _ => []⟩
      9 0).2.1 ⟨false, false, true, false⟩ 7 ⟨some 5, none, none⟩ rfl,
    (c5_stall_counter_dynamics ⟨fun _ => false, fun _ => "", fun _ => []⟩
      9 0).2.2.1 2,
    (c5_stall_counter_dynamics ⟨fun _ => false, fun _ => "", fun _ => []⟩
      9 0).2.2.2 1 (by decide)⟩

/-- C7: a failed status poll increments the strike counter by exactly one, a
successful poll resets it to zero, and from a fresh counter the first two
consecutive failures only wait and retry (no kill), while the third kills
exactly the supervised wrapper pid once and returns failure
(`Outcome.sessionFatal`, i.e. `return False`) without advancing to another
credential. -/
theorem c7_three_strike_poll_failure (pt : ProcTable) (proc_pid : Int)
    (rules : Rules) (level : Nat) (st : MonState) :
    ((monStep pt proc_pid rules level st none).1.cnt_error =
      st.cnt_error + 1) ∧
    (∀ snap,
      (monStep pt proc_pid rules level st (some snap)).1.cnt_error = 0) ∧
    (st.cnt_error = 0 →
      monStep pt proc_pid rules level st none =
        (⟨1, st.cnt_403_retry, st.cnt_transfer_last⟩, [],
          Outcome.retryWait) ∧
      monStep pt proc_pid rules level
          ⟨1, st.cnt_403_retry, st.cnt_transfer_last⟩ none =
        (⟨2, st.cnt_403_retry, st.cnt_transfer_last⟩, [],
          Outcome.retryWait) ∧
      monStep pt proc_pid rules level
          ⟨2, st.cnt_403_retry, st.cnt_transfer_last⟩ none =
        (⟨3, st.cnt_403_retry, st.cnt_transfer_last⟩, [proc_pid],
          Outcome.sessionFatal)) := by
  refine ⟨?_, ?_, ?_⟩
  · simp only [monStep]
    split_ifs <;> rfl
  · intro snap
    rw [monStep_fst_of_poll]
  · intro h0
    obtain ⟨ce, cr, cl⟩ := st
    dsimp only at h0
    subst h0
    exact ⟨rfl, rfl, rfl⟩

/-- Witness for C7: strike counter at 0, three failed polls in a row. -/
theorem c7_three_strike_poll_failure_witness :
    ((⟨0, 4, 6⟩ : MonState).cnt_error = 0) ∧
    (monStep ⟨fun _ => false, fun _ => "", fun _ => []⟩ 9
        ⟨false, false, false, false⟩ 2 ⟨0, 4, 6⟩ none =
      (⟨1, 4, 6⟩, [], Outcome.retryWait) ∧
    monStep ⟨fun _ => false, fun _ => "", fun _ => []⟩ 9
        ⟨false, false, false, false⟩ 2 ⟨1, 4, 6⟩ none =
      (⟨2, 4, 6⟩, [], Outcome.retryWait) ∧
    monStep ⟨fun _ => false, fun _ => "", fun _ => []⟩ 9
        ⟨false, false, false, false⟩ 2 ⟨2, 4, 6⟩ none =
      (⟨3, 4, 6⟩, [9], Outcome.sessionFatal)) ∧
    (monStep ⟨fun _ => false, fun _ => "", fun _ => []⟩ 9
        ⟨false, false, false, false⟩ 2 ⟨0, 4, 6⟩
        (some ⟨none, none, none⟩)).1.cnt_error = 0 :=
  ⟨rfl,
    (c7_three_strike_poll_failure ⟨fun _ => false, fun _ => "", fun _ => []⟩
      9 ⟨false, false, false, false⟩ 2 ⟨0, 4, 6⟩).2.2 rfl,
    (c7_three_strike_poll_failure ⟨fun _ => false, fun _ => "", fun _ => []⟩
      9 ⟨false, false, false, false⟩ 2 ⟨0, 4, 6⟩).2.1 ⟨none, none, none⟩⟩

/-- C10: on the three-strike fatal path the loop signals exactly the tracked
wrapper shell pid and nothing else (in particular no child, for any process
table); on the rotation path it performs the child-tree walk, which — when
the wrapper is alive — signals exactly its `rclone`-named children. -/
theorem c10_fatal_vs_rotation_kill_scope (pt : ProcTable) (proc_pid : Int)
    (rules : Rules) (level : Nat) (st : MonState) :
    (3 ≤ st.cnt_error + 1 →
      monStep pt proc_pid rules level st none =
        ({ st with cnt_error := st.cnt_error + 1 }, [proc_pid],
          Outcome.sessionFatal)) ∧
    (∀ c : Int, c ≠ proc_pid →
      c ∉ (monStep pt proc_pid rules level st none).2.1) ∧
    (∀ snap,
      level ≤ (decide_switch rules st.cnt_403_retry st.cnt_transfer_last
        snap).2.2.1 →
      (monStep pt proc_pid rules level st (some snap)).2.1 =
          force_kill_rclone_subproc_by_parent_pid pt proc_pid ∧
        (monStep pt proc_pid rules level st (some snap)).2.2 =
          Outcome.rotate) ∧
    (pt.pid_exists proc_pid = true →
      force_kill_rclone_subproc_by_parent_pid pt proc_pid =
        (pt.children proc_pid).filter fun child_pid =>
          strContainsSub (pt.name child_pid) "rclone") := by
  refine ⟨?_, ?_, ?_, ?_⟩
  · intro h
    simp only [monStep]
    rw [if_pos h]
  · intro c hc
    simp only [monStep]
    split_ifs <;> simp [hc]
  · intro snap h
    constructor <;>
      · simp only [monStep]
        rw [if_pos h]
  · intro hex
    unfold force_kill_rclone_subproc_by_parent_pid
    rw [if_pos hex]

/-- Witness for C10: wrapper pid 5, one rclone-named child 6 and one
shell-named child 7. -/
theorem c10_fatal_vs_rotation_kill_scope_witness :
    (3 ≤ (⟨2, 0, 0⟩ : MonState).cnt_error + 1 ∧ (6 : Int) ≠ 5 ∧
      1 ≤ (decide_switch ⟨false, false, false, true⟩ 0 0
        ⟨none, none, none⟩).2.2.1) ∧
    monStep ⟨fun _ => true, fun p => if p = 6 then "rclone" else "bash",
        fun _ => [6, 7]⟩ 5 ⟨false, false, false, true⟩ 1 ⟨2, 0, 0⟩ none =
      (⟨3, 0, 0⟩, [5], Outcome.sessionFatal) ∧
    (6 : Int) ∉ (monStep ⟨fun _ => true,
        fun p => if p = 6 then "rclone" else "bash",
        fun _ => [6, 7]⟩ 5 ⟨false, false, false, true⟩ 1 ⟨2, 0, 0⟩
        none).2.1 ∧
    (monStep ⟨fun _ => true, fun p => if p = 6 then "rclone" else "bash",
        fun _ => [6, 7]⟩ 5 ⟨false, false, false, true⟩ 1 ⟨2, 0, 0⟩
        (some ⟨none, none, none⟩)).2.1 =
      force_kill_rclone_subproc_by_parent_pid
        ⟨fun _ => true, fun p => if p = 6 then "rclone" else "bash",
          fun _ => [6, 7]⟩ 5 ∧
    force_kill_rclone_subproc_by_parent_pid
        ⟨fun _ => true, fun p => if p = 6 then "rclone" else "bash",
          fun _ => [6, 7]⟩ 5 = [6] :=
  ⟨⟨by decide, by decide, by decide⟩,
    (c10_fatal_vs_rotation_kill_scope
      ⟨fun _ => true, fun p => if p = 6 then "rclone" else "bash",
        fun _ => [6, 7]⟩ 5 ⟨false, false, false, true⟩ 1 ⟨2, 0, 0⟩).1
      (by decide),
    (c10_fatal_vs_rotation_kill_scope
      ⟨fun _ => true, fun p => if p = 6 then "rclone" else "bash",
        fun _ => [6, 7]⟩ 5 ⟨false, false, false, true⟩ 1 ⟨2, 0, 0⟩).2.1 6
      (by decide),
    ((c10_fatal_vs_rotation_kill_scope
      ⟨fun _ => true, fun p => if p = 6 then "rclone" else "bash",
        fun _ => [6, 7]⟩ 5 ⟨false, false, false, true⟩ 1 ⟨2, 0, 0⟩).2.2.1
      ⟨none, none, none⟩ (by decide)).1,
    by decide⟩

end AutoRclone
